import Mathlib

/-!
Verification of `boost::array` (boostorg/array, `include/boost/array.hpp`).

The container `boost::array<T,N>` stores exactly `N` elements of type `T`
in a member `T elems[N]`.  We embed it as a structure holding a list of
length `N`.  Member functions are translated one by one from the source:

* `rangecheck i` (line 919): `i >= size() ? throw std::out_of_range(...) : true`,
  embedded as an `Except` value carrying the thrown exception;
* `at i` (line 510): `rangecheck(i), elems[i]`;
* `operator[] i` (line 443): unchecked `elems[i]`, precondition `i < N`,
  embedded with the precondition as a proof argument;
* `front`/`back` (lines 565/621): `elems[0]` / `elems[N-1]`;
* `size`/`empty`/`max_size` (lines 674/691/710): `N` / `false` / `N`;
* `fill value` (line 889): `std::fill_n(begin(), size(), value)`;
  `assign` (line 872) calls `fill`;
* `swap y` (line 743): `for (i = 0; i < N; ++i) boost::swap(elems[i], y.elems[i])`;
* the `array<T,0>` specialization (lines 927-1056), whose element accessors
  all call `failed_rangecheck()` which throws `std::out_of_range`;
* the free comparison operators (lines 1080-1203), `swap` (line 1228) and
  `hash_value` (line 1335).

A C++ function that may throw `std::out_of_range` is embedded as a function
into `Except CxxException _`; `Except.error` is the thrown (recoverable)
exception and `Except.ok` the normal return.
-/

namespace BoostArray

/-- Exceptions thrown by the code under study.  The only exception type used
by `array.hpp` is `std::out_of_range`, carrying a message string.  A thrown
exception propagates to the caller, who may catch it: it is recoverable. -/
inductive CxxException where
  | outOfRange (msg : String)
deriving DecidableEq, Repr

/-- The container `boost::array<T,N>` (line 85): a wrapper around the member
`T elems[N]`.  The list `elems` holds the `N` elements in index order. -/
structure array (T : Type) (N : Nat) where
  elems : List T
  len_eq : elems.length = N
deriving DecidableEq, Repr

variable {T : Type} {N : Nat}

/-- The raw C++ indexing `elems[i]` for a valid index `i < N`: element `i`
of the storage.  Out-of-range raw indexing is undefined behaviour in C++,
so the embedding demands the bound as a proof. -/
def elemsIdx (a : array T N) (i : Nat) (h : i < N) : T :=
  a.elems.get ⟨i, by rw [a.len_eq]; exact h⟩

/-- Member `array<T,N>::rangecheck(i)` (line 919):
`return i >= size() ? boost::throw_exception(std::out_of_range("array<>: index out of range")), true : true;`. -/
def rangecheck (N : Nat) (i : Nat) : Except CxxException Bool :=
  if i ≥ N then
    Except.error (CxxException.outOfRange "array<>: index out of range")
  else
    Except.ok true

/-- Member `array<T,N>::at(i)` (line 510): `return rangecheck(i), elems[i];` —
first `rangecheck(i)` runs (throwing when `i >= N`), then the element is
returned.  When `rangecheck` does not throw, `i < N` holds and `elems[i]`
is the stored element. -/
def atIdx (a : array T N) (i : Nat) : Except CxxException T :=
  match rangecheck N i with
  | Except.error e => Except.error e
  | Except.ok _ =>
      if h : i < N then Except.ok (elemsIdx a i h)
      else Except.error (CxxException.outOfRange "array<>: index out of range")

/-- Member `array<T,N>::operator[](i)` (line 443): unchecked access `elems[i]`
under the documented precondition `i < N`. -/
def subscript (a : array T N) (i : Nat) (h : i < N) : T :=
  elemsIdx a i h

/-- Member `array<T,N>::front()` (line 565): `return elems[0];` — precondition
`N > 0` (undefined behaviour on an empty array, see the specialization). -/
def front (a : array T N) (h : 0 < N) : T :=
  elemsIdx a 0 h

/-- Member `array<T,N>::back()` (line 621): `return elems[N-1];` — precondition
`N > 0`. -/
def back (a : array T N) (h : 0 < N) : T :=
  elemsIdx a (N - 1) (Nat.sub_lt h Nat.one_pos)

/-- Member `array<T,N>::size()` (line 674): `return N;`. -/
def size (N : Nat) : Nat := N

/-- Member `array<T,N>::empty()` (line 691) for the general template: `return false;`.
(The general template is instantiated only for `N != 0`; `N == 0` selects the
specialization below.) -/
def emptyGeneral : Bool := false

/-- Member `array<T,N>::max_size()` (line 710): `return N;`. -/
def max_size (N : Nat) : Nat := N

end BoostArray

namespace BoostArray

variable {T : Type} {N : Nat}

/-- The `array<T,0>` specialization (line 927) holds no storage; the type
is a tag with no fields, as in the C++ class (whose only state is the
`this` address used to manufacture the placeholder iterator). -/
structure array0 (T : Type) where
deriving DecidableEq, Repr

/-- Member `array<T,0>::failed_rangecheck()` (line 1043): constructs
`std::out_of_range e("attempt to access element of an empty array")` and
throws it via `boost::throw_exception(e)`; control never reaches the
return statement that follows. -/
def failed_rangecheck (T : Type) : Except CxxException T :=
  Except.error (CxxException.outOfRange "attempt to access element of an empty array")

/-- Member `array<T,0>::operator[](i)` (line 981): `return failed_rangecheck();`
for every `i` (the index parameter is unnamed and unused). -/
def array0_subscript (_a : array0 T) (_i : Nat) : Except CxxException T :=
  failed_rangecheck T

/-- Member `array<T,0>::at(i)` (line 992): `return failed_rangecheck();` for
every `i`. -/
def array0_at (_a : array0 T) (_i : Nat) : Except CxxException T :=
  failed_rangecheck T

/-- Member `array<T,0>::front()` (line 996): `return failed_rangecheck();`. -/
def array0_front (_a : array0 T) : Except CxxException T :=
  failed_rangecheck T

/-- Member `array<T,0>::back()` (line 1006): `return failed_rangecheck();`. -/
def array0_back (_a : array0 T) : Except CxxException T :=
  failed_rangecheck T

/-- Member `array<T,0>::size()` (line 1017): `return 0;`. -/
def array0_size : Nat := 0

/-- Member `array<T,0>::empty()` (line 1018): `return true;`. -/
def array0_empty : Bool := true

/-- Member `array<T,0>::max_size()` (line 1019): `return 0;`. -/
def array0_max_size : Nat := 0

/-- Member `array<T,0>::fill(value)` (line 1040): empty body, a no-op. -/
def array0_fill (a : array0 T) (_value : T) : array0 T := a

/-- Member `array<T,0>::assign(value)` (line 1039): `fill(value)`. -/
def array0_assign (a : array0 T) (value : T) : array0 T :=
  array0_fill a value

/-- Member `array<T,0>::swap(y)` (line 1022): empty body, a no-op on both arrays. -/
def array0_swap (a y : array0 T) : array0 T × array0 T := (a, y)

/-- C++ template specialization selection for `empty`: `boost::array<T,N>`
denotes the specialization (line 928) when `N == 0` and the general
template (line 85) otherwise. -/
def emptyDispatch (N : Nat) : Bool :=
  if N = 0 then array0_empty else emptyGeneral

/-- Template specialization selection for `size`. -/
def sizeDispatch (N : Nat) : Nat :=
  if N = 0 then array0_size else size N

/-- Template specialization selection for `max_size`. -/
def maxSizeDispatch (N : Nat) : Nat :=
  if N = 0 then array0_max_size else max_size N

/-- The standard algorithm `std::fill_n(first, count, value)`: assigns
`value` through the first `count` positions of the range starting at
`first` and leaves the rest untouched.  (When `count` exceeds the range
length the C++ call is undefined behaviour; `array::fill` always passes
`count == N == length`.) -/
def fill_n (l : List T) (count : Nat) (value : T) : List T :=
  match count, l with
  | 0, l => l
  | _ + 1, [] => []
  | n + 1, _ :: xs => value :: fill_n xs n value

theorem fill_n_length (l : List T) (count : Nat) (value : T) :
    (fill_n l count value).length = l.length := by
  induction l generalizing count with
  | nil => cases count <;> rfl
  | cons x xs ih =>
      cases count with
      | zero => rfl
      | succ n => simpa [fill_n] using ih n

/-- Member `array<T,N>::fill(value)` (line 889):
`std::fill_n(begin(), size(), value);`. -/
def fill (a : array T N) (value : T) : array T N :=
  ⟨fill_n a.elems (size N) value, by rw [fill_n_length, a.len_eq]⟩

/-- Member `array<T,N>::assign(value)` (line 872): `fill(value);`. -/
def assign (a : array T N) (value : T) : array T N :=
  fill a value

/-- Member `array<T,N>::operator=(const array<T2,N>& rhs)` (line 849):
`std::copy(rhs.begin(), rhs.end(), begin())` — overwrites every element
with the converted corresponding element of `rhs`; `conv` is the
element-wise conversion `T2 -> T` the C++ assignment applies. -/
def assignFrom {T2 : Type} (conv : T2 → T) (_a : array T N) (rhs : array T2 N) :
    array T N :=
  ⟨rhs.elems.map conv, by rw [List.length_map, rhs.len_eq]⟩

/-- The element exchange loop of `array<T,N>::swap(y)` (line 743):
`for (i = 0; i < N; ++i) boost::swap(elems[i], y.elems[i]);` — pairwise
exchange, index by index, returning both resulting element sequences. -/
def swapElems : List T → List T → List T × List T
  | x :: xs, y :: ys =>
      let p := swapElems xs ys
      (y :: p.1, x :: p.2)
  | xs, ys => (xs, ys)

theorem swapElems_length (xs ys : List T) :
    (swapElems xs ys).1.length = xs.length ∧
      (swapElems xs ys).2.length = ys.length := by
  induction xs generalizing ys with
  | nil => cases ys <;> simp [swapElems]
  | cons x xs ih =>
      cases ys with
      | nil => simp [swapElems]
      | cons y ys => simpa [swapElems] using ih ys

/-- Member `array<T,N>::swap(y)` (line 743): the member swap, returning the pair
(new value of `*this`, new value of `y`). -/
def swapMember (a y : array T N) : array T N × array T N :=
  (⟨(swapElems a.elems y.elems).1, by
      rw [(swapElems_length a.elems y.elems).1, a.len_eq]⟩,
   ⟨(swapElems a.elems y.elems).2, by
      rw [(swapElems_length a.elems y.elems).2, y.len_eq]⟩)

/-- The free function `boost::swap(x, y)` for arrays (line 1228):
`x.swap(y);`. -/
def swapFree (x y : array T N) : array T N × array T N :=
  swapMember x y

/-- The standard algorithm `std::equal(first1, last1, first2)` with `T`'s
`operator==`: walks the first range, comparing element pairs in index
order, and stops (returning `false`) at the first mismatch.  (The second
range is only read up to the first range's length; both ranges have
length `N` here.) -/
def stdEqual [DecidableEq T] : List T → List T → Bool
  | [], _ => true
  | _ :: _, [] => false
  | x :: xs, y :: ys => if x = y then stdEqual xs ys else false

/-- Free `operator==(x, y)` (line 1081):
`std::equal(x.begin(), x.end(), y.begin())`. -/
def eqOp [DecidableEq T] (x y : array T N) : Bool :=
  stdEqual x.elems y.elems

/-- The standard algorithm
`std::lexicographical_compare(first1, last1, first2, last2)` with `T`'s
`operator<`: at each index, `*first1 < *first2` decides `true`,
`*first2 < *first1` decides `false`, equivalent elements continue; a
range that ends first is smaller; equal-length equivalent ranges give
`false`. -/
def lexicographicalCompare [LT T] [DecidableRel ((· < ·) : T → T → Prop)] :
    List T → List T → Bool
  | _, [] => false
  | [], _ :: _ => true
  | x :: xs, y :: ys =>
      if x < y then true
      else if y < x then false
      else lexicographicalCompare xs ys

/-- Free `operator<(x, y)` (line 1105):
`std::lexicographical_compare(x.begin(), x.end(), y.begin(), y.end())`. -/
def ltOp [LT T] [DecidableRel ((· < ·) : T → T → Prop)] (x y : array T N) : Bool :=
  lexicographicalCompare x.elems y.elems

/-- Free `operator!=(x, y)` (line 1129): `!(x == y)`. -/
def neOp [DecidableEq T] (x y : array T N) : Bool :=
  !(eqOp x y)

/-- Free `operator>(x, y)` (line 1153): `y < x`. -/
def gtOp [LT T] [DecidableRel ((· < ·) : T → T → Prop)] (x y : array T N) : Bool :=
  ltOp y x

/-- Free `operator<=(x, y)` (line 1177): `!(y < x)`. -/
def leOp [LT T] [DecidableRel ((· < ·) : T → T → Prop)] (x y : array T N) : Bool :=
  !(ltOp y x)

/-- Free `operator>=(x, y)` (line 1201): `!(x < y)`. -/
def geOp [LT T] [DecidableRel ((· < ·) : T → T → Prop)] (x y : array T N) : Bool :=
  !(ltOp x y)

/-- Modelled from the spec: `boost::hash_range(first, last)` is only
declared in this repository (line 1313); its definition lives in
Boost.ContainerHash.  Per the spec it "combines the hashes of all N
elements in index order into one combined hash value": starting from a
seed, it folds a combining step over the element hashes in index order.
`hashElem` is the element hash function and `combine` the seed-combining
step, both supplied by the host hashing machinery. -/
def hash_range (hashElem : T → Nat) (combine : Nat → Nat → Nat) :
    Nat → List T → Nat
  | seed, [] => seed
  | seed, x :: xs => hash_range hashElem combine (combine seed (hashElem x)) xs

/-- Free `boost::hash_value(arr)` (line 1336):
`boost::hash_range(arr.begin(), arr.end())` — the combined hash of the
whole element range, from the initial seed. -/
def hash_value (hashElem : T → Nat) (combine : Nat → Nat → Nat)
    (arr : array T N) : Nat :=
  hash_range hashElem combine 0 arr.elems

/-! Helper lemmas about the embedded algorithms. -/

theorem array_ext (a b : array T N) (h : a.elems = b.elems) : a = b := by
  cases a
  cases b
  simp_all

theorem stdEqual_iff_eq [DecidableEq T] (xs : List T) :
    ∀ (ys : List T), xs.length = ys.length → (stdEqual xs ys = true ↔ xs = ys) := by
  induction xs with
  | nil =>
      intro ys hlen
      cases ys with
      | nil => simp [stdEqual]
      | cons y ys => simp at hlen
  | cons x xs ih =>
      intro ys hlen
      cases ys with
      | nil => simp at hlen
      | cons y ys =>
          by_cases h : x = y
          · subst h
            simp [stdEqual, ih ys (by simpa using hlen)]
          · simp [stdEqual, h]

theorem fill_n_full (l : List T) (value : T) :
    fill_n l l.length value = List.replicate l.length value := by
  induction l with
  | nil => rfl
  | cons x xs ih => simp [fill_n, ih, List.replicate_succ]

theorem swapElems_of_length_eq (xs : List T) :
    ∀ (ys : List T), xs.length = ys.length → swapElems xs ys = (ys, xs) := by
  induction xs with
  | nil =>
      intro ys hlen
      cases ys with
      | nil => rfl
      | cons y ys => simp at hlen
  | cons x xs ih =>
      intro ys hlen
      cases ys with
      | nil => simp at hlen
      | cons y ys => simp [swapElems, ih ys (by simpa using hlen)]

theorem lexicographicalCompare_self [LinearOrder T] (l : List T) :
    lexicographicalCompare l l = false := by
  induction l with
  | nil => rfl
  | cons x xs ih => simp [lexicographicalCompare, lt_irrefl, ih]

theorem lexicographicalCompare_first_diff [LinearOrder T] (k : Nat) :
    ∀ (xs ys : List T) (hx : k < xs.length) (hy : k < ys.length),
      (∀ (j : Nat) (hj : j < k),
        xs.get ⟨j, Nat.lt_trans hj hx⟩ = ys.get ⟨j, Nat.lt_trans hj hy⟩) →
      xs.get ⟨k, hx⟩ ≠ ys.get ⟨k, hy⟩ →
      lexicographicalCompare xs ys = decide (xs.get ⟨k, hx⟩ < ys.get ⟨k, hy⟩) := by
  induction k with
  | zero =>
      intro xs ys hx hy _ hdiff
      cases xs with
      | nil => simp at hx
      | cons x xs =>
          cases ys with
          | nil => simp at hy
          | cons y ys =>
              have hd1 : (x :: xs).get ⟨0, hx⟩ = x := rfl
              have hd2 : (y :: ys).get ⟨0, hy⟩ = y := rfl
              rw [hd1, hd2] at hdiff ⊢
              rcases lt_trichotomy x y with h | h | h
              · simp [lexicographicalCompare, h]
              · exact absurd h hdiff
              · simp [lexicographicalCompare, not_lt_of_gt h, h]
  | succ k ih =>
      intro xs ys hx hy hpre hdiff
      cases xs with
      | nil => simp at hx
      | cons x xs =>
          cases ys with
          | nil => simp at hy
          | cons y ys =>
              have hxy : x = y := by simpa using hpre 0 (Nat.succ_pos k)
              have hx' : k < xs.length := Nat.lt_of_succ_lt_succ hx
              have hy' : k < ys.length := Nat.lt_of_succ_lt_succ hy
              have hpre' : ∀ (j : Nat) (hj : j < k),
                  xs.get ⟨j, Nat.lt_trans hj hx'⟩ = ys.get ⟨j, Nat.lt_trans hj hy'⟩ := by
                intro j hj
                simpa using hpre (j + 1) (Nat.succ_lt_succ hj)
              have hd1 : (x :: xs).get ⟨k + 1, hx⟩ = xs.get ⟨k, hx'⟩ := rfl
              have hd2 : (y :: ys).get ⟨k + 1, hy⟩ = ys.get ⟨k, hy'⟩ := rfl
              rw [hd1, hd2] at hdiff ⊢
              have hrec := ih xs ys hx' hy' hpre' hdiff
              subst hxy
              simpa [lexicographicalCompare, lt_irrefl] using hrec

theorem hash_range_foldl (hashElem : T → Nat) (combine : Nat → Nat → Nat)
    (l : List T) :
    ∀ (seed : Nat), hash_range hashElem combine seed l =
      l.foldl (fun s x => combine s (hashElem x)) seed := by
  induction l with
  | nil => intro seed; rfl
  | cons x xs ih => intro seed; simp [hash_range, ih]

theorem eqOp_iff_elems_eq [DecidableEq T] (x y : array T N) :
    eqOp x y = true ↔ x.elems = y.elems :=
  stdEqual_iff_eq x.elems y.elems (by rw [x.len_eq, y.len_eq])

theorem swapFree_eq_pair (x y : array T N) : swapFree x y = (y, x) := by
  have hl : x.elems.length = y.elems.length := by rw [x.len_eq, y.len_eq]
  have hs := swapElems_of_length_eq x.elems y.elems hl
  have c1 : (swapFree x y).1 = y := by
    apply array_ext
    show (swapElems x.elems y.elems).1 = y.elems
    rw [hs]
  have c2 : (swapFree x y).2 = x := by
    apply array_ext
    show (swapElems x.elems y.elems).2 = x.elems
    rw [hs]
  calc swapFree x y = ((swapFree x y).1, (swapFree x y).2) := rfl
    _ = (y, x) := by rw [c1, c2]

/-! The claims. -/

/-- C1: for every `array<T,N> a` and every index `i`, if `i < N` then
`a.at(i)` returns element `i`, and if `i >= N` it throws
`std::out_of_range` (a recoverable exception, embedded as `Except.error`);
for `N == 0` it throws for every `i`, including `i == 0`. -/
theorem at_spec (a : array T N) (i : Nat) :
    (∀ (h : i < N), atIdx a i = Except.ok (elemsIdx a i h)) ∧
    (i ≥ N → atIdx a i =
      Except.error (CxxException.outOfRange "array<>: index out of range")) ∧
    (N = 0 → atIdx a i =
      Except.error (CxxException.outOfRange "array<>: index out of range")) := by
  refine ⟨?_, ?_, ?_⟩
  · intro h
    have hge : ¬ i ≥ N := not_le_of_lt h
    simp [atIdx, rangecheck, hge, h]
  · intro h
    simp [atIdx, rangecheck, h]
  · intro h
    subst h
    simp [atIdx, rangecheck]

/-- Witness for C1 at concrete inputs: on `{10, 20, 30}`, `at(1)` returns
`20`, `at(5)` throws; on the empty array, `at(0)` throws. -/
theorem at_spec_witness :
    atIdx (⟨[10, 20, 30], rfl⟩ : array Nat 3) 1 = Except.ok 20 ∧
    atIdx (⟨[10, 20, 30], rfl⟩ : array Nat 3) 5 =
      Except.error (CxxException.outOfRange "array<>: index out of range") ∧
    atIdx (⟨[], rfl⟩ : array Nat 0) 0 =
      Except.error (CxxException.outOfRange "array<>: index out of range") :=
  ⟨(at_spec (⟨[10, 20, 30], rfl⟩ : array Nat 3) 1).1 (by decide),
   (at_spec (⟨[10, 20, 30], rfl⟩ : array Nat 3) 5).2.1 (by decide),
   (at_spec (⟨[], rfl⟩ : array Nat 0) 0).2.2 rfl⟩

/-- C2: in the `array<T,0>` specialization, `operator[]`, `at`, `front`
and `back` all throw `std::out_of_range` unconditionally, for every
requested index including `0`, instead of undefined behaviour. -/
theorem array0_access_spec (a : array0 T) (i : Nat) :
    array0_subscript a i = Except.error
      (CxxException.outOfRange "attempt to access element of an empty array") ∧
    array0_at a i = Except.error
      (CxxException.outOfRange "attempt to access element of an empty array") ∧
    array0_front a = Except.error
      (CxxException.outOfRange "attempt to access element of an empty array") ∧
    array0_back a = Except.error
      (CxxException.outOfRange "attempt to access element of an empty array") :=
  ⟨rfl, rfl, rfl, rfl⟩

/-- C3: for every valid index `i < N`, `a[i]` and `a.at(i)` denote the
same element. -/
theorem subscript_at_agree (a : array T N) (i : Nat) (h : i < N) :
    atIdx a i = Except.ok (subscript a i h) := by
  have hge : ¬ i ≥ N := not_le_of_lt h
  simp [atIdx, rangecheck, subscript, hge, h]

/-- Witness for C3: on `{4, 5, 6}`, `at(2)` returns `a[2] = 6`. -/
theorem subscript_at_agree_witness :
    atIdx (⟨[4, 5, 6], rfl⟩ : array Nat 3) 2 = Except.ok 6 :=
  subscript_at_agree (⟨[4, 5, 6], rfl⟩ : array Nat 3) 2 (by decide)

/-- C4: `size()` and `max_size()` both return `N` (through the template
specialization dispatch), `empty()` is `true` iff `N == 0`, and every
mutating operation (`fill`, `assign`, member `swap`, converting
assignment) yields arrays that still hold exactly `N` elements. -/
theorem size_invariants {T2 : Type} (a b : array T N) (v : T)
    (conv : T2 → T) (rhs : array T2 N) :
    sizeDispatch N = N ∧
    maxSizeDispatch N = N ∧
    (emptyDispatch N = true ↔ N = 0) ∧
    (fill a v).elems.length = N ∧
    (assign a v).elems.length = N ∧
    (swapMember a b).1.elems.length = N ∧
    (swapMember a b).2.elems.length = N ∧
    (assignFrom conv a rhs).elems.length = N := by
  refine ⟨?_, ?_, ?_, (fill a v).len_eq, (assign a v).len_eq,
    (swapMember a b).1.len_eq, (swapMember a b).2.len_eq,
    (assignFrom conv a rhs).len_eq⟩
  · by_cases h : N = 0 <;> simp [sizeDispatch, array0_size, size, h]
  · by_cases h : N = 0 <;> simp [maxSizeDispatch, array0_max_size, max_size, h]
  · by_cases h : N = 0 <;> simp [emptyDispatch, array0_empty, emptyGeneral, h]

/-- Witness for C4 at `N = 3` and `N = 0`. -/
theorem size_invariants_witness :
    sizeDispatch 3 = 3 ∧ (emptyDispatch 0 = true ↔ (0 : Nat) = 0) :=
  ⟨(size_invariants (⟨[1, 2, 3], rfl⟩ : array Nat 3) ⟨[1, 2, 3], rfl⟩ 0
      (id : Nat → Nat) ⟨[1, 2, 3], rfl⟩).1,
   (size_invariants (⟨[], rfl⟩ : array Nat 0) ⟨[], rfl⟩ 0
      (id : Nat → Nat) ⟨[], rfl⟩).2.2.1⟩

/-- C5: after `a.fill(v)` every element at a valid index equals `v`;
`assign` is the same operation as `fill`; for `N == 0` the operation is a
no-op (both in the general template, where the loop runs zero times, and
in the specialization, whose `fill` has an empty body). -/
theorem fill_spec (a : array T N) (value : T) :
    (∀ (i : Nat) (h : i < N), subscript (fill a value) i h = value) ∧
    assign a value = fill a value ∧
    (N = 0 → fill a value = a) ∧
    (∀ (z : array0 T), array0_fill z value = z ∧ array0_assign z value = z) := by
  refine ⟨?_, rfl, ?_, ?_⟩
  · intro i h
    have he : (fill a value).elems = List.replicate N value := by
      have h0 : fill_n a.elems a.elems.length value =
          List.replicate a.elems.length value := fill_n_full a.elems value
      rw [a.len_eq] at h0
      exact h0
    simp [subscript, elemsIdx, he]
  · intro h
    subst h
    refine array_ext _ _ ?_
    show fill_n a.elems (size 0) value = a.elems
    cases hc : a.elems <;> rfl
  · intro z
    exact ⟨rfl, rfl⟩

/-- Witness for C5: filling `{1, 2, 3}` with `7` makes every element `7`;
on a zero-length array `fill` is the identity. -/
theorem fill_spec_witness :
    subscript (fill (⟨[1, 2, 3], rfl⟩ : array Nat 3) 7) 1 (by decide) = 7 ∧
    fill (⟨[], rfl⟩ : array Nat 0) 7 = (⟨[], rfl⟩ : array Nat 0) :=
  ⟨(fill_spec (⟨[1, 2, 3], rfl⟩ : array Nat 3) 7).1 1 (by decide),
   (fill_spec (⟨[], rfl⟩ : array Nat 0) 7).2.2.1 rfl⟩

/-- C6: `a == b` holds iff the elements agree at every valid index, and
`==` on arrays is reflexive, symmetric and transitive (element equality
here is the host equality on `T`, an equivalence). -/
theorem eqOp_spec [DecidableEq T] (a b c : array T N) :
    (eqOp a b = true ↔
      ∀ (i : Nat) (h : i < N), subscript a i h = subscript b i h) ∧
    eqOp a a = true ∧
    eqOp a b = eqOp b a ∧
    (eqOp a b = true → eqOp b c = true → eqOp a c = true) := by
  refine ⟨?_, ?_, ?_, ?_⟩
  · rw [eqOp_iff_elems_eq]
    constructor
    · intro he i h
      simp [subscript, elemsIdx, he]
    · intro hi
      apply List.ext_get (by rw [a.len_eq, b.len_eq])
      intro n h1 h2
      have hn : n < N := by rw [← a.len_eq]; exact h1
      simpa [subscript, elemsIdx] using hi n hn
  · exact (eqOp_iff_elems_eq a a).mpr rfl
  · rcases hab : eqOp a b with hf | ht
    · rcases hba : eqOp b a with _ | _
      · rfl
      · have := ((eqOp_iff_elems_eq a b).mpr ((eqOp_iff_elems_eq b a).mp hba).symm)
        rw [hab] at this
        exact this
    · have := ((eqOp_iff_elems_eq b a).mpr ((eqOp_iff_elems_eq a b).mp hab).symm)
      rw [this]
  · intro hab hbc
    exact (eqOp_iff_elems_eq a c).mpr
      (((eqOp_iff_elems_eq a b).mp hab).trans ((eqOp_iff_elems_eq b c).mp hbc))

/-- Witness for C6 on `{1, 2} == {1, 2}`: index-wise agreement follows
from equality, and transitivity applies at concrete arrays. -/
theorem eqOp_spec_witness :
    (∀ (i : Nat) (h : i < 2),
      subscript (⟨[1, 2], rfl⟩ : array Nat 2) i h =
        subscript (⟨[1, 2], rfl⟩ : array Nat 2) i h) ∧
    eqOp (⟨[1, 2], rfl⟩ : array Nat 2) (⟨[1, 2], rfl⟩ : array Nat 2) = true :=
  ⟨(eqOp_spec (⟨[1, 2], rfl⟩ : array Nat 2) ⟨[1, 2], rfl⟩ ⟨[1, 2], rfl⟩).1.mp
      (by decide),
   (eqOp_spec (⟨[1, 2], rfl⟩ : array Nat 2) ⟨[1, 2], rfl⟩ ⟨[1, 2], rfl⟩).2.2.2
      (by decide) (by decide)⟩

/-- C7: `a < b` is the index-wise lexicographic comparison: at the first
index where the elements differ, that element comparison decides the
result; equal arrays are not less-than; and `!=`, `>`, `<=`, `>=` are
defined from `==` and `<` exactly as in the source. -/
theorem ltOp_spec [DecidableEq T] [LinearOrder T] (a b : array T N) :
    (∀ (k : Nat) (hk : k < N),
      (∀ (j : Nat) (hj : j < k),
        subscript a j (Nat.lt_trans hj hk) = subscript b j (Nat.lt_trans hj hk)) →
      subscript a k hk ≠ subscript b k hk →
      ltOp a b = decide (subscript a k hk < subscript b k hk)) ∧
    (eqOp a b = true → ltOp a b = false) ∧
    neOp a b = !(eqOp a b) ∧
    gtOp a b = ltOp b a ∧
    leOp a b = !(ltOp b a) ∧
    geOp a b = !(ltOp a b) := by
  refine ⟨?_, ?_, rfl, rfl, rfl, rfl⟩
  · intro k hk hpre hdiff
    have hx : k < a.elems.length := by rw [a.len_eq]; exact hk
    have hy : k < b.elems.length := by rw [b.len_eq]; exact hk
    have hpre' : ∀ (j : Nat) (hj : j < k),
        a.elems.get ⟨j, Nat.lt_trans hj hx⟩ = b.elems.get ⟨j, Nat.lt_trans hj hy⟩ := by
      intro j hj
      have := hpre j hj
      simpa [subscript, elemsIdx] using this
    have hdiff' : a.elems.get ⟨k, hx⟩ ≠ b.elems.get ⟨k, hy⟩ := by
      simpa [subscript, elemsIdx] using hdiff
    have := lexicographicalCompare_first_diff k a.elems b.elems hx hy hpre' hdiff'
    simpa [ltOp, subscript, elemsIdx] using this
  · intro h
    have he : a.elems = b.elems := (eqOp_iff_elems_eq a b).mp h
    show lexicographicalCompare a.elems b.elems = false
    rw [he]
    exact lexicographicalCompare_self b.elems

/-- Witness for C7: `{1, 2, 9} < {1, 3, 0}` is decided at index 1 (where
`2 < 3`), and an array is not less than itself. -/
theorem ltOp_spec_witness :
    ltOp (⟨[1, 2, 9], rfl⟩ : array Nat 3) (⟨[1, 3, 0], rfl⟩ : array Nat 3) = true ∧
    ltOp (⟨[1, 2], rfl⟩ : array Nat 2) (⟨[1, 2], rfl⟩ : array Nat 2) = false :=
  ⟨((ltOp_spec (⟨[1, 2, 9], rfl⟩ : array Nat 3) ⟨[1, 3, 0], rfl⟩).1 1 (by decide)
      (by decide) (by decide)).trans (by decide),
   (ltOp_spec (⟨[1, 2], rfl⟩ : array Nat 2) ⟨[1, 2], rfl⟩).2.1 (by decide)⟩

/-- C8: `swap(a, b)` exchanges all `N` elements pairwise, index by index
(afterwards the first array holds `b`'s former elements and the second
holds `a`'s), and swapping twice restores both arrays. -/
theorem swap_spec (a b : array T N) :
    (swapFree a b).1.elems = b.elems ∧
    (swapFree a b).2.elems = a.elems ∧
    swapFree (swapFree a b).1 (swapFree a b).2 = (a, b) := by
  refine ⟨?_, ?_, ?_⟩
  · rw [swapFree_eq_pair]
  · rw [swapFree_eq_pair]
  · rw [swapFree_eq_pair a b]
    exact swapFree_eq_pair b a

/-- C9: `hash_value` is the in-order combination of the element hashes
(a left fold of the combining step over the elements, from the initial
seed), and equal arrays hash identically. -/
theorem hash_value_spec [DecidableEq T] (hashElem : T → Nat)
    (combine : Nat → Nat → Nat) (a b : array T N) :
    hash_value hashElem combine a =
      a.elems.foldl (fun s x => combine s (hashElem x)) 0 ∧
    (eqOp a b = true →
      hash_value hashElem combine a = hash_value hashElem combine b) := by
  refine ⟨hash_range_foldl hashElem combine a.elems 0, ?_⟩
  intro h
  show hash_range hashElem combine 0 a.elems = hash_range hashElem combine 0 b.elems
  rw [(eqOp_iff_elems_eq a b).mp h]

/-- Witness for C9 with `hashElem = id`, `combine = (+)` on `{3, 4}`:
the combined hash is `0 + 3 + 4 = 7`, and equal arrays agree. -/
theorem hash_value_spec_witness :
    hash_value id Nat.add (⟨[3, 4], rfl⟩ : array Nat 2) = 7 ∧
    hash_value id Nat.add (⟨[3, 4], rfl⟩ : array Nat 2) =
      hash_value id Nat.add (⟨[3, 4], rfl⟩ : array Nat 2) :=
  ⟨(hash_value_spec id Nat.add (⟨[3, 4], rfl⟩ : array Nat 2)
      (⟨[3, 4], rfl⟩ : array Nat 2)).1.trans (by decide),
   (hash_value_spec id Nat.add (⟨[3, 4], rfl⟩ : array Nat 2)
      (⟨[3, 4], rfl⟩ : array Nat 2)).2 (by decide)⟩

/-- C10: on zero-length arrays every comparison treats the operands as
equal — `==`, `<=`, `>=` give `true` and `<`, `!=`, `>` give `false` —
without touching any element. -/
theorem zero_length_compare [DecidableEq T] [LinearOrder T] (x y : array T 0) :
    eqOp x y = true ∧ ltOp x y = false ∧ neOp x y = false ∧
    gtOp x y = false ∧ leOp x y = true ∧ geOp x y = true := by
  have hx : x.elems = [] := List.length_eq_zero.mp x.len_eq
  have hy : y.elems = [] := List.length_eq_zero.mp y.len_eq
  refine ⟨?_, ?_, ?_, ?_, ?_, ?_⟩ <;>
    simp [eqOp, ltOp, neOp, gtOp, leOp, geOp, hx, hy, stdEqual,
      lexicographicalCompare]

end BoostArray
